import Mathlib

/-!
Verification development for the crypto backend (src/backand/main.py and
src/backand/settings.py): a shallow embedding in Lean 4 of the
FeedConnection reconnection loop (`bybit_websocket_loop`), the historical
backfill reconciler (`historical_data_loader`), the hourly maintenance
loop (`periodic_cleanup`) and the settings coercion (`get_setting`),
together with theorems settling the specified behaviour of each.

Machine conventions: Python `int` is embedded as `Int` (or `Nat` for
counters that are only ever incremented from 0), Python `float` as a
rational carrying the exact value of the IEEE-754 binary64 number, with
an explicit round-to-nearest-even model `fp64round` applied after every
arithmetic operation, as binary64 semantics prescribe. Exceptions are
embedded as `Option`/sum results; `try/except` blocks become matches on
those results.
-/

namespace Crypto

/-! ## IEEE-754 binary64 model

`main.py` line 299 computes `total_hours = analysis_hours +
(offset_minutes / 60)` with Python `float` (binary64) arithmetic and
line 301 truncates `total_hours * 60` to an int.  We model binary64
values by the exact rational they denote, and each arithmetic operation
by exact rational arithmetic followed by rounding to 53 significant bits,
round-to-nearest ties-to-even.  The model covers the normal finite range
(no subnormals, no overflow), which contains every value arising in the
settings arithmetic embedded here. -/

/-- An exact (not necessarily reduced) fraction with positive
denominator, maintained by construction.  Used instead of `Rat` so that
every operation is plain `Int`/`Nat` arithmetic and concrete instances
reduce inside `decide`. -/
structure Frac where
  num : Int
  den : Int
  deriving DecidableEq, Repr

/-- The integer `n` as a fraction. -/
def fofInt (n : Int) : Frac := ⟨n, 1⟩

/-- Exact fraction addition. -/
def fadd (a b : Frac) : Frac := ⟨a.num * b.den + b.num * a.den, a.den * b.den⟩

/-- Exact fraction negation. -/
def fneg (a : Frac) : Frac := ⟨-a.num, a.den⟩

/-- Exact fraction subtraction. -/
def fsub (a b : Frac) : Frac := fadd a (fneg b)

/-- Exact fraction multiplication. -/
def fmul (a b : Frac) : Frac := ⟨a.num * b.num, a.den * b.den⟩

/-- Exact fraction division (for a divisor with nonzero numerator),
keeping the denominator positive. -/
def fdiv (a b : Frac) : Frac :=
  let n := a.num * b.den
  let d := a.den * b.num
  if d < 0 then ⟨-n, -d⟩ else ⟨n, d⟩

/-- Absolute value of a fraction. -/
def fabs (a : Frac) : Frac := ⟨|a.num|, a.den⟩

/-- Value comparison `a < b` of fractions (positive denominators). -/
def fltB (a b : Frac) : Bool := decide (a.num * b.den < b.num * a.den)

/-- Value comparison `a ≤ b` of fractions (positive denominators). -/
def fleB (a b : Frac) : Bool := decide (a.num * b.den ≤ b.num * a.den)

/-- Floor of a fraction (positive denominator): floor division. -/
def ffloor (a : Frac) : Int := a.num.fdiv a.den

/-- Fuel-based floor of `log2` (structural, hence kernel-reducible);
`natLog2Aux n n` computes `Nat.log2 n`. -/
def natLog2Aux : Nat → Nat → Nat
  | 0, _ => 0
  | fuel + 1, n => if 2 ≤ n then natLog2Aux fuel (n / 2) + 1 else 0

/-- Floor of `log2 n` for `n ≥ 1` (0 at 0). -/
def natLog2 (n : Nat) : Nat := natLog2Aux n n

/-- The power `2 ^ e` as a fraction, for an integer (possibly negative) exponent. -/
def fpow2 (e : Int) : Frac :=
  if 0 ≤ e then ⟨((2 ^ e.toNat : Nat) : Int), 1⟩ else ⟨1, ((2 ^ (-e).toNat : Nat) : Int)⟩

/-- Nearest integer to a fraction, ties to even. -/
def froundHalfEven (q : Frac) : Int :=
  let f := ffloor q
  let r := fsub q (fofInt f)
  if fltB r ⟨1, 2⟩ then f
  else if fltB ⟨1, 2⟩ r then f + 1
  else if f % 2 = 0 then f else f + 1

/-- For `q > 0`, the unique `e` with `2 ^ e ≤ q < 2 ^ (e + 1)`:
bit-length guess from numerator and denominator, corrected by one. -/
def fracLog2Floor (q : Frac) : Int :=
  let guess : Int := (natLog2 q.num.toNat : Int) - (natLog2 q.den.toNat : Int)
  if fleB (fpow2 guess) q then guess else guess - 1

/-- Round a fraction to the nearest binary64 value (53 significant bits,
ties to even); exact on zero, normal range only. -/
def fp64round (q : Frac) : Frac :=
  if q.num = 0 then ⟨0, 1⟩
  else
    let a := fabs q
    let e := fracLog2Floor a
    let m := froundHalfEven (fdiv a (fpow2 (e - 52)))
    let r := fmul (fofInt m) (fpow2 (e - 52))
    if q.num < 0 then fneg r else r

/-- Python `int(x)` on a float: truncation toward zero. -/
def pyTrunc (q : Frac) : Int :=
  if fltB q ⟨0, 1⟩ then -(ffloor (fneg q)) else ffloor q

/-! ## settings.py: `get_setting`

`get_setting(key, default)` (settings.py lines 273-289) looks the key up
in the loaded string-to-string settings dictionary, falling back to the
given default, and then coerces string values: a string equal to "true"
or "false" after lowercasing becomes a bool; otherwise, if it contains a
dot it is parsed with `float(...)`, else with `int(...)`; a `ValueError`
from either parse returns the raw string.  Non-string values are
returned unchanged.  We embed Python's dynamically typed value as
`PyValue` and the loaded dictionary as a partial map `String → Option
String`.  The builtins `int(...)` and `float(...)` are external to the
repository, so — as with the database and exchange calls of the loader —
they enter the embedding as oracles `intParse`, `floatParse : String →
Option _` (`none` embeds `ValueError`); the theorems about
`get_setting` hold for every semantics of these oracles, in particular
for CPython's actual parsers with their exponent notation, underscores,
whitespace and Unicode digits.  A small concrete fragment of the
literal grammar is also defined, solely to instantiate the oracles in
witnesses. -/

/-- A Python value of one of the types `get_setting` can produce; a
float is carried as the exact fraction it denotes. -/
inductive PyValue where
  | b (v : Bool)
  | i (v : Int)
  | f (v : Frac)
  | s (v : String)
  deriving DecidableEq, Repr

/-- Nonempty all-ASCII-digit character list. -/
def pyDigits (l : List Char) : Bool := !l.isEmpty && l.all Char.isDigit

/-- Value of an all-digit character list, most significant first. -/
def digitsToNat (l : List Char) : Nat := l.foldl (fun a c => 10 * a + (c.toNat - 48)) 0

/-- A sound fragment of Python's `int(s)`: optional sign then ASCII
digits, on which it agrees with `int(s)`.  Python's `int` accepts
strictly more (underscores, surrounding whitespace, Unicode digits), so
this fragment does not model `int` in any theorem; it serves only to
instantiate the `intParse` oracle in concrete witnesses. -/
def intLitFragment (s : String) : Option Int :=
  match s.toList with
  | '-' :: rest => if pyDigits rest then some (-(digitsToNat rest : Int)) else none
  | '+' :: rest => if pyDigits rest then some (digitsToNat rest : Int) else none
  | l => if pyDigits l then some (digitsToNat l : Int) else none

/-- Exact fractional value of an unsigned plain decimal literal
(`digits`, `digits.digits`, `digits.`, `.digits`), else `none`. -/
def decimalValue (l : List Char) : Option Frac :=
  let intPart := l.takeWhile (fun c => c ≠ '.')
  match l.dropWhile (fun c => c ≠ '.') with
  | [] => if pyDigits intPart then some (fofInt (digitsToNat intPart : Int)) else none
  | '.' :: frac =>
    if intPart.all Char.isDigit && frac.all Char.isDigit &&
        (!intPart.isEmpty || !frac.isEmpty) then
      some ⟨(digitsToNat intPart : Int) * ((10 ^ frac.length : Nat) : Int) +
        (digitsToNat frac : Int), ((10 ^ frac.length : Nat) : Int)⟩
    else none
  | _ => none

/-- A sound fragment of Python's `float(s)`: signed plain decimal
literals, rounded to the nearest binary64 as `float` does.  Python's
`float` accepts strictly more (exponent notation, underscores,
whitespace, inf/nan, Unicode digits), so this fragment does not model
`float` in any theorem; it serves only to instantiate the `floatParse`
oracle in concrete witnesses. -/
def floatLitFragment (s : String) : Option Frac :=
  match s.toList with
  | '-' :: rest => (decimalValue rest).map (fun q => fp64round (fneg q))
  | '+' :: rest => (decimalValue rest).map fp64round
  | l => (decimalValue l).map fp64round

/-- Python `s.lower()` (ASCII as in the settings values). -/
def pyLower (s : String) : String := String.mk (s.data.map Char.toLower)

/-- Python `c in s` for a single character. -/
def pyContains (s : String) (c : Char) : Bool := s.data.contains c

/-- The string-coercion body of `get_setting` (settings.py lines
279-287), over the `int`/`float` oracles: lowercased "true"/"false"
become bools; a string containing '.' is passed to `float(...)`, any
other to `int(...)`; a parse raising `ValueError` (oracle `none`)
returns the raw string. -/
def coerceStr (intParse : String → Option Int)
    (floatParse : String → Option Frac) (value : String) : PyValue :=
  if pyLower value = "true" || pyLower value = "false" then
    .b (pyLower value = "true")
  else if pyContains value '.' then
    match floatParse value with
    | some q => .f q
    | none => .s value
  else
    match intParse value with
    | some n => .i n
    | none => .s value

/-- The `isinstance(value, str)` dispatch of `get_setting`: only string
values are coerced, every other value is returned unchanged. -/
def coerceValue (intParse : String → Option Int)
    (floatParse : String → Option Frac) : PyValue → PyValue
  | .s v => coerceStr intParse floatParse v
  | v => v

/-- The function `get_setting(key, default)` (settings.py lines 273-289)
over the loaded settings map and the `int`/`float` oracles:
`value = settings.get(key, default)` followed by the string coercion. -/
def get_setting (intParse : String → Option Int)
    (floatParse : String → Option Frac)
    (settings : String → Option String) (key : String)
    (default : PyValue) : PyValue :=
  coerceValue intParse floatParse (match settings key with
    | some v => .s v
    | none => default)

/-! ## main.py: the analysis-window arithmetic of `historical_data_loader`

Lines 295-311: `analysis_hours = get_setting('ANALYSIS_HOURS', 1)`,
`offset_minutes = get_setting('OFFSET_MINUTES', 0)`,
`total_hours = analysis_hours + (offset_minutes / 60)` (binary64),
`int(total_hours * 60)` minutes, then
`end_time_ms = current_time_ms - offset_minutes * 60 * 1000` and
`start_time_ms = end_time_ms - int(total_hours * 60) * 60 * 1000`
in exact Python integer arithmetic. -/

/-- The value `int(total_hours * 60)` of main.py line 301/311 for integer settings:
`total_hours = analysis_hours + (offset_minutes / 60)` evaluated in
binary64, then truncated. -/
def total_minutes_f (analysis_hours offset_minutes : Int) : Int :=
  let total_hours :=
    fp64round (fadd (fofInt analysis_hours)
      (fp64round (fdiv (fofInt offset_minutes) (fofInt 60))))
  pyTrunc (fp64round (fmul total_hours (fofInt 60)))

/-- The fetch window `(start_time_ms, end_time_ms)` of main.py
lines 309-311. -/
def window_start_end (current_time_ms analysis_hours offset_minutes : Int) :
    Int × Int :=
  let end_time_ms := current_time_ms - offset_minutes * 60 * 1000
  let start_time_ms := end_time_ms - total_minutes_f analysis_hours offset_minutes * 60 * 1000
  (start_time_ms, end_time_ms)

/-! ## main.py: `bybit_websocket_loop` (lines 259-281)

The reconnection loop:

    while bybit_websocket.is_running:
        try:
            await bybit_websocket.connect()
            bybit_websocket.reconnect_attempts = 0
        except Exception:
            if bybit_websocket.is_running:
                bybit_websocket.reconnect_attempts += 1
                if reconnect_attempts <= max_reconnect_attempts:
                    delay = min(reconnect_delay * reconnect_attempts, 60)
                    await asyncio.sleep(delay)
                else:
                    bybit_websocket.is_running = False
                    break

We embed the mutable fields the loop touches as `BybitWS`.  One loop
iteration consumes a `WSEvent`: whether `connect()` returned normally
(`ok`) and whether external shutdown code cleared `is_running` while
`connect()` was pending (`stop_requested`, the only other writer of the
flag).  `wsRun` folds iterations over an event trace, counting the
`connect()` calls issued; it stops when the loop condition fails, and a
`break` coincides with the condition failing on the next check since it
happens exactly when the loop has set `is_running` to false. -/

/-- The fields of `BybitWebSocketManager` read and written by
`bybit_websocket_loop`. -/
structure BybitWS where
  is_running : Bool
  reconnect_attempts : Nat
  max_reconnect_attempts : Nat
  reconnect_delay : Nat
  deriving DecidableEq, Repr

/-- One `connect()` call as observed by the loop. -/
structure WSEvent where
  /-- external shutdown cleared `is_running` while `connect()` was pending -/
  stop_requested : Bool
  /-- whether `connect()` returned normally rather than raising -/
  ok : Bool
  deriving DecidableEq, Repr

/-- One iteration of the `while` body of `bybit_websocket_loop`,
entered with `is_running` true. -/
def wsIteration (s : BybitWS) (e : WSEvent) : BybitWS :=
  let s1 := if e.stop_requested then { s with is_running := false } else s
  if e.ok then
    { s1 with reconnect_attempts := 0 }
  else if s1.is_running then
    let s2 := { s1 with reconnect_attempts := s1.reconnect_attempts + 1 }
    if s2.reconnect_attempts ≤ s2.max_reconnect_attempts then s2
    else { s2 with is_running := false }
  else s1

/-- The duration passed to `asyncio.sleep` by an iteration, when the
retry branch is taken (main.py line 274). -/
def wsIterationSleep (s : BybitWS) (e : WSEvent) : Option Nat :=
  let s1 := if e.stop_requested then { s with is_running := false } else s
  if e.ok then none
  else if s1.is_running then
    let s2 := { s1 with reconnect_attempts := s1.reconnect_attempts + 1 }
    if s2.reconnect_attempts ≤ s2.max_reconnect_attempts then
      some (min (s2.reconnect_delay * s2.reconnect_attempts) 60)
    else none
  else none

/-- Run `bybit_websocket_loop` over an event trace: final state and the
number of `connect()` calls issued. -/
def wsRun (s : BybitWS) : List WSEvent → BybitWS × Nat
  | [] => (s, 0)
  | e :: es =>
    if s.is_running then
      let r := wsRun (wsIteration s e) es
      (r.1, r.2 + 1)
    else (s, 0)

/-! ## main.py: `historical_data_loader` (lines 284-357)

Per cycle the loader snapshots the watchlist and, per symbol inside a
`try`/`except`/`continue`, reads the settings, checks integrity, and if
`integrity_percentage < 90` walks the window in 24-hour batches:

    current_start = start_time_ms
    while current_start < end_time_ms:
        current_end = min(current_start + 24 * 60 * 60 * 1000, end_time_ms)
        try:
            klines = await bybit_api.get_kline_data(symbol, current_start, current_end)
            for kline in klines: ... save_historical_kline_data ...
        except Exception: ...log...
        current_start = current_end

The external calls are embedded as oracles: `integrity` is the result of
`check_data_integrity` (`none` when the call raises), `fetch` the result
of `get_kline_data` for a sub-window (`none` when it raises).  A
successful cycle ends in `asyncio.sleep(1800)`; an exception escaping to
the outer `try` (a cycle-level error, e.g. `get_watchlist` raising,
embedded as `watchlist = none`) ends in `asyncio.sleep(300)`. -/

/-- One record from `get_kline_data`. -/
structure Kline where
  timestamp : Int
  open_p : Rat
  high : Rat
  low : Rat
  close : Rat
  volume : Rat
  deriving DecidableEq, Repr

/-- The `kline_data` dict saved by `save_historical_kline_data`
(main.py lines 325-333): `end = timestamp + 60000`. -/
structure KlineData where
  start : Int
  end_ms : Int
  open_p : Rat
  high : Rat
  low : Rat
  close : Rat
  volume : Rat
  deriving DecidableEq, Repr

/-- Mapping of a fetched kline to the saved record (lines 325-333). -/
def toKlineData (k : Kline) : KlineData :=
  ⟨k.timestamp, k.timestamp + 60000, k.open_p, k.high, k.low, k.close, k.volume⟩

/-- The sub-windows `(current_start, current_end)` enumerated by the
batch `while` loop (lines 314-343), with
`batch_size_hours * 60 * 60 * 1000 = 86400000`. -/
def batchWindows (current_start end_time_ms : Int) : List (Int × Int) :=
  if current_start < end_time_ms then
    (current_start, min (current_start + 86400000) end_time_ms) ::
      batchWindows (min (current_start + 86400000) end_time_ms) end_time_ms
  else []
termination_by (end_time_ms - current_start).toNat
decreasing_by
  rcases le_total (current_start + 86400000) end_time_ms with h2 | h2
  · rw [min_eq_left h2]; omega
  · rw [min_eq_right h2]; omega

/-- The batch `while` loop itself: the list of sub-windows for which a
fetch was issued, and the list of records saved.  A failed fetch
(`fetch _ _ = none`) is caught by the inner `except`: nothing is saved
for that sub-window and the loop advances to the next one. -/
def loadRange (fetch : Int → Int → Option (List Kline))
    (current_start end_time_ms : Int) : List (Int × Int) × List KlineData :=
  if current_start < end_time_ms then
    let current_end := min (current_start + 86400000) end_time_ms
    let saved := match fetch current_start current_end with
      | some klines => klines.map toKlineData
      | none => []
    let rest := loadRange fetch current_end end_time_ms
    ((current_start, current_end) :: rest.1, saved ++ rest.2)
  else ([], [])
termination_by (end_time_ms - current_start).toNat
decreasing_by
  rcases le_total (current_start + 86400000) end_time_ms with h2 | h2
  · rw [min_eq_left h2]; omega
  · rw [min_eq_right h2]; omega

/-- Outcome of the per-symbol body (lines 293-350): `failed` when the
integrity check raised (caught by the per-symbol `except`, which
`continue`s to the next symbol); otherwise the fetches issued and the
records saved. -/
inductive SymbolResult where
  | ok (fetched : List (Int × Int)) (saved : List KlineData)
  | failed
  deriving DecidableEq, Repr

/-- The per-symbol body: skip entirely (no fetch, no save) unless
`integrity_percentage < 90`, else walk the window in 24-hour batches. -/
def processSymbol (integrity : Option Rat)
    (fetch : Int → Int → Option (List Kline))
    (current_time_ms analysis_hours offset_minutes : Int) : SymbolResult :=
  match integrity with
  | none => .failed
  | some integrity_percentage =>
    if integrity_percentage < 90 then
      let w := window_start_end current_time_ms analysis_hours offset_minutes
      let r := loadRange fetch w.1 w.2
      .ok r.1 r.2
    else .ok [] []

/-- The oracles one backfill cycle consults: the watchlist snapshot
(`none` when `get_watchlist` raises — a cycle-level error) and the
per-symbol integrity and fetch results. -/
structure CycleEnv where
  watchlist : Option (List String)
  integrity : String → Option Rat
  fetch : String → Int → Int → Option (List Kline)

/-- One iteration of the outer `while True` of `historical_data_loader`:
the per-symbol results in snapshot order and the seconds slept before
the next cycle (1800 on completion, 300 when a cycle-level error was
caught by the outer `except`). -/
def historicalCycle (env : CycleEnv)
    (current_time_ms analysis_hours offset_minutes : Int) :
    List (String × SymbolResult) × Nat :=
  match env.watchlist with
  | none => ([], 300)
  | some watchlist =>
    (watchlist.map (fun symbol =>
      (symbol, processSymbol (env.integrity symbol) (env.fetch symbol)
        current_time_ms analysis_hours offset_minutes)), 1800)

/-! ## main.py: `periodic_cleanup` (lines 360-372)

    while True:
        try:
            await asyncio.sleep(3600)
            if alert_manager: await alert_manager.cleanup_old_data()
            if db_queries: retention_hours = get_setting('DATA_RETENTION_HOURS', 2)
            logger.info(...)
        except Exception as e: logger.error(...)

The sleep is at the top of the body, so pass `n + 1` starts one hour
after pass `n` *ends*: with `durations n` the running time of pass `n`,
the start instants (seconds after loop entry, sleeps exact) satisfy the
recurrence below.  The `except` wraps the whole body, so an error raised
by `cleanup_old_data` skips the rest of that pass but the loop, and with
it the schedule, continues. -/

/-- Start instant of pass `n` of `periodic_cleanup`, given each pass's
running time. -/
def periodic_cleanup_start (durations : Nat → Nat) : Nat → Nat
  | 0 => 3600
  | n + 1 => periodic_cleanup_start durations n + durations n + 3600

/-- The observable steps of one `periodic_cleanup` pass body. -/
inductive CleanupStep where
  | alert_cleanup
  | retention_read
  | log_done
  deriving DecidableEq, Repr

/-- The steps executed by one pass (both component guards truthy): when
`cleanup_old_data` raises, the `except` catches it and the remaining
steps of the pass are skipped. -/
def periodic_cleanup_pass (alert_cleanup_raises : Bool) : List CleanupStep :=
  if alert_cleanup_raises then [.alert_cleanup]
  else [.alert_cleanup, .retention_read, .log_done]

/-! ## Theorems -/

/-- A stopped loop issues no `connect()` call: the `while` condition
fails immediately. -/
theorem wsRun_stopped (s : BybitWS) (events : List WSEvent)
    (h : s.is_running = false) : wsRun s events = (s, 0) := by
  cases events with
  | nil => rfl
  | cons e es => simp [wsRun, h]

/-- Feeding `j` consecutive failures (no external stop) into a running
loop whose attempt budget still has room advances `reconnect_attempts`
by `j`, keeps the loop running, and issues `j` `connect()` calls before
the remaining events. -/
theorem wsRun_failures (base m : Nat) (j : Nat) :
    ∀ (c : Nat) (rest : List WSEvent), c + j ≤ m →
    wsRun ⟨true, c, m, base⟩ (List.replicate j ⟨false, false⟩ ++ rest) =
      ((wsRun ⟨true, c + j, m, base⟩ rest).1,
        (wsRun ⟨true, c + j, m, base⟩ rest).2 + j) := by
  induction j with
  | zero => intro c rest _; simp
  | succ j ih =>
    intro c rest hle
    rw [List.replicate_succ, List.cons_append]
    have hstep : wsIteration ⟨true, c, m, base⟩ ⟨false, false⟩ =
        ⟨true, c + 1, m, base⟩ := by
      simp only [wsIteration]
      have h1 : c + 1 ≤ m := by omega
      simp [h1]
    have : wsRun ⟨true, c, m, base⟩
        ((⟨false, false⟩ : WSEvent) :: (List.replicate j ⟨false, false⟩ ++ rest)) =
        ((wsRun (wsIteration ⟨true, c, m, base⟩ ⟨false, false⟩)
            (List.replicate j ⟨false, false⟩ ++ rest)).1,
          (wsRun (wsIteration ⟨true, c, m, base⟩ ⟨false, false⟩)
            (List.replicate j ⟨false, false⟩ ++ rest)).2 + 1) := by
      simp [wsRun]
    rw [this, hstep, ih (c + 1) rest (by omega)]
    have : c + 1 + j = c + (j + 1) := by omega
    rw [this, Nat.add_assoc]

/-- C2: For every attempt count `n = c + 1` with `1 ≤ n ≤
max_reconnect_attempts`, the delay the run loop passes to
`asyncio.sleep` after the `n`-th consecutive failure equals
`min(reconnect_delay * n, 60)`, and this quantity is monotonically
non-decreasing in `n`. -/
theorem reconnect_delay_formula (base m c : Nat) (h : c + 1 ≤ m) :
    wsIterationSleep ⟨true, c, m, base⟩ ⟨false, false⟩ =
      some (min (base * (c + 1)) 60) ∧
    min (base * (c + 1)) 60 ≤ min (base * (c + 1 + 1)) 60 := by
  constructor
  · simp [wsIterationSleep, h]
  · exact min_le_min (Nat.mul_le_mul_left base (by omega)) le_rfl

/-- Witness for `reconnect_delay_formula` at `base = 7`, `m = 5`,
`c = 2` (third failure). -/
theorem reconnect_delay_formula_witness :
    2 + 1 ≤ 5 ∧
    (wsIterationSleep ⟨true, 2, 5, 7⟩ ⟨false, false⟩ =
        some (min (7 * (2 + 1)) 60) ∧
      min (7 * (2 + 1)) 60 ≤ min (7 * (2 + 1 + 1)) 60) :=
  ⟨by omega, reconnect_delay_formula 7 5 2 (by omega)⟩

/-- C3: Starting from a running loop with a clean attempt counter,
`max_reconnect_attempts + 1` consecutive connection failures set the
running flag to false, exit the loop, and issue exactly
`max_reconnect_attempts + 1` connect calls no matter what events could
have followed. -/
theorem ws_retry_exhaustion (base m : Nat) (extra : List WSEvent) :
    (wsRun ⟨true, 0, m, base⟩
        (List.replicate (m + 1) ⟨false, false⟩ ++ extra)).1.is_running = false ∧
    (wsRun ⟨true, 0, m, base⟩
        (List.replicate (m + 1) ⟨false, false⟩ ++ extra)).2 = m + 1 := by
  rw [List.replicate_succ', List.append_assoc]
  rw [wsRun_failures base m m 0 _ (by omega)]
  have hiter : wsIteration ⟨true, m, m, base⟩ ⟨false, false⟩ =
      ⟨false, m + 1, m, base⟩ := by
    simp only [wsIteration]
    have h1 : ¬ (m + 1 ≤ m) := by omega
    simp [h1]
  have hrun : wsRun (⟨true, 0 + m, m, base⟩ : BybitWS)
      ((⟨false, false⟩ : WSEvent) :: extra) =
      ((wsRun (wsIteration ⟨true, 0 + m, m, base⟩ ⟨false, false⟩) extra).1,
        (wsRun (wsIteration ⟨true, 0 + m, m, base⟩ ⟨false, false⟩) extra).2 + 1) := by
    simp [wsRun]
  rw [List.singleton_append, hrun]
  have h0m : (0 : Nat) + m = m := by omega
  rw [h0m, hiter, wsRun_stopped ⟨false, m + 1, m, base⟩ extra rfl]
  exact ⟨rfl, by omega⟩

/-- C4: In one iteration of the run loop, a successful connection
resets `reconnect_attempts` to 0 regardless of its prior value; a
connection failure increments it exactly when the running flag is still
true at the catch site (no external stop arrived), and leaves it
unchanged otherwise. -/
theorem attempt_count_transitions (s : BybitWS) (e : WSEvent) :
    (e.ok = true → (wsIteration s e).reconnect_attempts = 0) ∧
    (e.ok = false → s.is_running = true → e.stop_requested = false →
      (wsIteration s e).reconnect_attempts = s.reconnect_attempts + 1) ∧
    (e.ok = false → (s.is_running = false ∨ e.stop_requested = true) →
      (wsIteration s e).reconnect_attempts = s.reconnect_attempts) := by
  obtain ⟨run, att, m, d⟩ := s
  obtain ⟨stop, ok⟩ := e
  refine ⟨fun hok => ?_, fun hok hrun hstop => ?_, fun hok hor => ?_⟩
  · subst hok; cases stop <;> simp [wsIteration]
  · simp only at hok hrun hstop; subst hok; subst hrun; subst hstop
    simp only [wsIteration]
    by_cases hle : att + 1 ≤ m <;> simp [hle]
  · simp only at hok; subst hok
    rcases hor with h | h
    · simp only at h; subst h; cases stop <;> simp [wsIteration]
    · simp only at h; subst h; cases run <;> simp [wsIteration]

/-- Witness for `attempt_count_transitions`: a success after 5 failures
resets the counter to 0. -/
theorem attempt_count_transitions_witness :
    (wsIteration ⟨true, 5, 3, 2⟩ ⟨false, true⟩).reconnect_attempts = 0 :=
  (attempt_count_transitions ⟨true, 5, 3, 2⟩ ⟨false, true⟩).1 rfl

/-- C7 (counterexample): with a pass of duration 600 s, the second pass
does not begin one hour after the first pass's start (it begins one hour
after its end), and an error raised by the alert-manager cleanup does
block the remaining cleanup work of that pass. -/
theorem maintenance_cadence_counterexample :
    periodic_cleanup_start (fun _ => 600) 1 ≠
      periodic_cleanup_start (fun _ => 600) 0 + 3600 ∧
    CleanupStep.retention_read ∉ periodic_cleanup_pass true := by
  constructor
  · decide
  · decide

/-- C7 (amended): each maintenance pass begins exactly one hour after
the previous pass's end (start-to-start spacing is one hour plus that
pass's duration); an error raised inside a pass is caught, so the
schedule is never cancelled and the next pass still occurs, but the
error skips the remaining cleanup work of the erroring pass. -/
theorem maintenance_cadence (durations : Nat → Nat) (n : Nat) :
    periodic_cleanup_start durations (n + 1) =
      periodic_cleanup_start durations n + durations n + 3600 ∧
    periodic_cleanup_pass false =
      [.alert_cleanup, .retention_read, .log_done] ∧
    periodic_cleanup_pass true = [.alert_cleanup] :=
  ⟨rfl, rfl, rfl⟩

/-- C5: when the integrity check reports a coverage percentage of at
least 90, the per-symbol backfill body issues zero fetch calls and zero
candle saves. -/
theorem skip_when_integrity_high (p : Rat)
    (fetch : Int → Int → Option (List Kline))
    (current_time_ms analysis_hours offset_minutes : Int) (h : 90 ≤ p) :
    processSymbol (some p) fetch current_time_ms analysis_hours offset_minutes =
      .ok [] [] := by
  simp [processSymbol, not_lt.mpr h]

/-- Witness for `skip_when_integrity_high` at coverage 95 %. -/
theorem skip_when_integrity_high_witness :
    (90 : Rat) ≤ 95 ∧
    processSymbol (some 95) (fun _ _ => none) 1700000000000 1 0 = .ok [] [] :=
  ⟨by norm_num,
    skip_when_integrity_high 95 (fun _ _ => none) 1700000000000 1 0 (by norm_num)⟩

/-- C9 (counterexample): the integrity check raising for a symbol is a
per-symbol error, caught inside the cycle: the cycle still completes and
the loop sleeps the normal 1800 s, not the 300 s the claim asserts for
an integrity-check failure. -/
theorem cycle_cadence_counterexample :
    (historicalCycle ⟨some ["BTCUSDT"], fun _ => none, fun _ _ _ => none⟩
        1700000000000 1 0).2 = 1800 ∧
    (historicalCycle ⟨some ["BTCUSDT"], fun _ => none, fun _ _ _ => none⟩
        1700000000000 1 0).2 ≠ 300 := by
  constructor
  · rfl
  · decide

/-- C9 (amended): the backfill loop waits 1800 s (30 min) before the
next cycle whenever the watchlist snapshot succeeds — including when the
integrity check fails for every symbol, which is a per-symbol error —
and waits 300 s (5 min) exactly when a cycle-level error (the watchlist
query raising) aborts the cycle early; in neither case does the loop
stop. -/
theorem cycle_cadence (env : CycleEnv)
    (current_time_ms analysis_hours offset_minutes : Int) :
    (∀ wl, env.watchlist = some wl →
      (historicalCycle env current_time_ms analysis_hours offset_minutes).2 = 1800) ∧
    (env.watchlist = none →
      (historicalCycle env current_time_ms analysis_hours offset_minutes).2 = 300) := by
  constructor
  · intro wl h; simp [historicalCycle, h]
  · intro h; simp [historicalCycle, h]

/-- An empty batch walk: no sub-window when the range is empty. -/
theorem batchWindows_nil (s e : Int) (h : ¬ s < e) : batchWindows s e = [] := by
  rw [batchWindows]; exact if_neg h

/-- A nonempty range yields at least one sub-window. -/
theorem batchWindows_ne_nil (s e : Int) (h : s < e) : batchWindows s e ≠ [] := by
  rw [batchWindows, if_pos h]; simp

/-- Every sub-window is nonempty, stays inside the range, and spans
exactly 24 hours unless truncated at the range end. -/
theorem batchWindows_mem (s e : Int) :
    ∀ w ∈ batchWindows s e,
      w.1 < w.2 ∧ w.2 ≤ e ∧ (w.2 = w.1 + 86400000 ∨ w.2 = e) := by
  intro w hw
  rw [batchWindows] at hw
  split at hw
  · next h =>
    rcases List.mem_cons.mp hw with rfl | hw2
    · refine ⟨?_, ?_, ?_⟩
      · show s < min (s + 86400000) e
        omega
      · show min (s + 86400000) e ≤ e
        omega
      · show min (s + 86400000) e = s + 86400000 ∨ min (s + 86400000) e = e
        omega
    · exact batchWindows_mem (min (s + 86400000) e) e w hw2
  · simp at hw
termination_by (e - s).toNat
decreasing_by omega

/-- Consecutive sub-windows are adjacent: each begins where the
previous one ends. -/
theorem batchWindows_chain (s e : Int) :
    List.Chain' (fun a b : Int × Int => a.2 = b.1) (batchWindows s e) := by
  rw [batchWindows]
  split
  · next h =>
    refine List.chain'_cons'.mpr ⟨?_, batchWindows_chain (min (s + 86400000) e) e⟩
    intro y hy
    rw [batchWindows] at hy
    split at hy
    · next h2 =>
      simp only [List.head?_cons, Option.mem_def, Option.some.injEq] at hy
      subst hy
      rfl
    · simp at hy
  · exact List.chain'_nil
termination_by (e - s).toNat
decreasing_by omega

/-- The last sub-window ends exactly at the range end. -/
theorem batchWindows_last (s e : Int) (w : Int × Int)
    (hw : (batchWindows s e).getLast? = some w) : w.2 = e := by
  have h : s < e := by
    by_contra hns
    rw [batchWindows_nil s e hns] at hw
    simp at hw
  rw [batchWindows, if_pos h] at hw
  by_cases h2 : min (s + 86400000) e < e
  · rcases hcons : batchWindows (min (s + 86400000) e) e with _ | ⟨b, l⟩
    · exact absurd hcons (batchWindows_ne_nil (min (s + 86400000) e) e h2)
    · rw [hcons, List.getLast?_cons_cons] at hw
      exact batchWindows_last (min (s + 86400000) e) e w (by rw [hcons]; exact hw)
  · rw [batchWindows_nil (min (s + 86400000) e) e h2] at hw
    simp only [List.getLast?_singleton, Option.some.injEq] at hw
    subst hw
    show min (s + 86400000) e = e
    omega
termination_by (e - s).toNat
decreasing_by omega

/-- A 50-hour range (180 000 000 ms) splits into exactly three fetch
windows of 24 h, 24 h and 2 h. -/
theorem batchWindows_fifty_hours (s : Int) :
    batchWindows s (s + 180000000) =
      [(s, s + 86400000), (s + 86400000, s + 172800000),
        (s + 172800000, s + 180000000)] := by
  rw [batchWindows, if_pos (show s < s + 180000000 by omega)]
  rw [show min (s + 86400000) (s + 180000000) = s + 86400000 from min_eq_left (by omega)]
  rw [batchWindows, if_pos (show s + 86400000 < s + 180000000 by omega)]
  rw [show min (s + 86400000 + 86400000) (s + 180000000) = s + 172800000 by
    rw [min_eq_left (by omega)]; omega]
  rw [batchWindows, if_pos (show s + 172800000 < s + 180000000 by omega)]
  rw [show min (s + 172800000 + 86400000) (s + 180000000) = s + 180000000 from
    min_eq_right (by omega)]
  rw [batchWindows, if_neg (show ¬ s + 180000000 < s + 180000000 by omega)]

/-- C1: over a deficient window `[start_time_ms, end_time_ms)` the
backfill loop issues fetches in fixed 24-hour sub-windows: the first
starts at `start_time_ms`, each sub-window is nonempty and spans 24 h
unless truncated at `end_time_ms`, consecutive sub-windows are adjacent
(strictly increasing, never overlapping), the last ends at
`end_time_ms`; a 50-hour window yields exactly 3 fetches of
24 h, 24 h and 2 h. -/
theorem backfill_subwindows (start_time_ms end_time_ms : Int)
    (h : start_time_ms < end_time_ms) :
    (∀ w ∈ batchWindows start_time_ms end_time_ms,
      w.1 < w.2 ∧ w.2 ≤ end_time_ms ∧
        (w.2 = w.1 + 86400000 ∨ w.2 = end_time_ms)) ∧
    List.Chain' (fun a b : Int × Int => a.2 = b.1)
      (batchWindows start_time_ms end_time_ms) ∧
    (batchWindows start_time_ms end_time_ms).head? =
      some (start_time_ms, min (start_time_ms + 86400000) end_time_ms) ∧
    (∀ w, (batchWindows start_time_ms end_time_ms).getLast? = some w →
      w.2 = end_time_ms) ∧
    batchWindows start_time_ms (start_time_ms + 180000000) =
      [(start_time_ms, start_time_ms + 86400000),
        (start_time_ms + 86400000, start_time_ms + 172800000),
        (start_time_ms + 172800000, start_time_ms + 180000000)] := by
  refine ⟨batchWindows_mem _ _, batchWindows_chain _ _, ?_,
    fun w hw => batchWindows_last _ _ w hw, batchWindows_fifty_hours _⟩
  rw [batchWindows, if_pos h]
  rfl

/-- Witness for `backfill_subwindows` on the window `[0, 180000000)`. -/
theorem backfill_subwindows_witness :
    (0 : Int) < 180000000 ∧
    ((∀ w ∈ batchWindows 0 180000000,
        w.1 < w.2 ∧ w.2 ≤ 180000000 ∧
          (w.2 = w.1 + 86400000 ∨ w.2 = 180000000)) ∧
      List.Chain' (fun a b : Int × Int => a.2 = b.1)
        (batchWindows 0 180000000) ∧
      (batchWindows 0 180000000).head? =
        some (0, min (0 + 86400000) 180000000) ∧
      (∀ w, (batchWindows 0 180000000).getLast? = some w →
        w.2 = 180000000) ∧
      batchWindows 0 (0 + 180000000) =
        [(0, 0 + 86400000), (0 + 86400000, 0 + 172800000),
          (0 + 172800000, 0 + 180000000)]) :=
  ⟨by omega, backfill_subwindows 0 180000000 (by omega)⟩

/-- The batch loop attempts exactly the sub-windows of `batchWindows`,
whatever the fetch results are: a failed sub-window fetch is caught and
the loop advances. -/
theorem loadRange_fst (fetch : Int → Int → Option (List Kline)) (s e : Int) :
    (loadRange fetch s e).1 = batchWindows s e := by
  rw [loadRange, batchWindows]
  split
  · next h =>
    simp only
    exact congrArg (List.cons _) (loadRange_fst fetch (min (s + 86400000) e) e)
  · rfl
termination_by (e - s).toNat
decreasing_by omega

/-- C6: failures are isolated — the sub-windows fetched for a symbol
are exactly the `batchWindows` partition whatever sub-window fetches
fail (each attempted once, none retried, none aborting the walk), and
the cycle processes every symbol of its snapshot whatever per-symbol
results (including integrity-check failures) occur. -/
theorem failure_isolation (fetch : Int → Int → Option (List Kline))
    (s e : Int) (env : CycleEnv)
    (current_time_ms analysis_hours offset_minutes : Int)
    (wl : List String) (hwl : env.watchlist = some wl) :
    (loadRange fetch s e).1 = batchWindows s e ∧
    ((historicalCycle env current_time_ms analysis_hours offset_minutes).1).map
      Prod.fst = wl := by
  refine ⟨loadRange_fst fetch s e, ?_⟩
  simp only [historicalCycle, hwl, List.map_map]
  exact List.map_id wl

/-- Witness for `failure_isolation`: a fetch oracle failing everywhere
and an integrity oracle raising for the first of two symbols. -/
theorem failure_isolation_witness :
    (CycleEnv.watchlist ⟨some ["AAAUSDT", "BBBUSDT"],
        fun sym => if sym = "AAAUSDT" then none else some 0,
        fun _ _ _ => none⟩ = some ["AAAUSDT", "BBBUSDT"]) ∧
    ((loadRange (fun _ _ => none) 0 180000000).1 = batchWindows 0 180000000 ∧
      ((historicalCycle ⟨some ["AAAUSDT", "BBBUSDT"],
          fun sym => if sym = "AAAUSDT" then none else some 0,
          fun _ _ _ => none⟩ 1700000000000 1 0).1).map Prod.fst =
        ["AAAUSDT", "BBBUSDT"]) :=
  ⟨rfl, failure_isolation (fun _ _ => none) 0 180000000
    ⟨some ["AAAUSDT", "BBBUSDT"],
      fun sym => if sym = "AAAUSDT" then none else some 0,
      fun _ _ _ => none⟩ 1700000000000 1 0 ["AAAUSDT", "BBBUSDT"] rfl⟩

/-- C8: the analysis-window duration in minutes is computed through
binary64 floating point (`int((analysis_hours + offset_minutes / 60) *
60)`, main.py lines 299-311), and this is not exact minute arithmetic:
with the integer settings `ANALYSIS_HOURS = 1`, `OFFSET_MINUTES = 40`
the computed duration is 99 minutes, one short of the exact
`1 * 60 + 40 = 100`, so the fetched window is
`[now - offset - 99 min, now - offset)` rather than the specified
`[now - offset - duration, now - offset)`. -/
theorem window_minutes_float_bug :
    total_minutes_f 1 40 = 99 ∧
    total_minutes_f 1 40 ≠ 1 * 60 + 40 ∧
    (∀ current_time_ms : Int,
      (window_start_end current_time_ms 1 40).2 -
        (window_start_end current_time_ms 1 40).1 = 99 * 60 * 1000) ∧
    total_minutes_f 1 0 = 60 := by
  have h99 : total_minutes_f 1 40 = 99 := by decide
  refine ⟨h99, by decide, ?_, by decide⟩
  intro current_time_ms
  simp only [window_start_end, h99]
  omega

/-- C10: for every semantics of the Python builtins `int(...)` and
`float(...)` (embedded as the oracles `intParse`/`floatParse`, `none`
embedding `ValueError` — CPython's actual parsers with exponent
notation, underscores, whitespace and Unicode digits are one
instantiation), `get_setting` is a total function (every `ValueError`
is caught), and on a stored string value it returns a bool when the
lowercased string is "true"/"false", a float when the string contains
'.' and `float(...)` parses it, an int when `int(...)` parses the
dot-free string, and the raw string when the attempted parse fails; an
absent key routes the default through the very same coercion. -/
theorem get_setting_spec (intParse : String → Option Int)
    (floatParse : String → Option Frac)
    (settings : String → Option String) (key : String)
    (default : PyValue) :
    (∀ v, settings key = some v → pyLower v = "true" →
      get_setting intParse floatParse settings key default = .b true) ∧
    (∀ v, settings key = some v → pyLower v = "false" →
      get_setting intParse floatParse settings key default = .b false) ∧
    (∀ v q, settings key = some v → pyLower v ≠ "true" → pyLower v ≠ "false" →
      pyContains v '.' = true → floatParse v = some q →
      get_setting intParse floatParse settings key default = .f q) ∧
    (∀ v n, settings key = some v → pyLower v ≠ "true" → pyLower v ≠ "false" →
      pyContains v '.' = false → intParse v = some n →
      get_setting intParse floatParse settings key default = .i n) ∧
    (∀ v, settings key = some v → pyLower v ≠ "true" → pyLower v ≠ "false" →
      (pyContains v '.' = true ∧ floatParse v = none ∨
        pyContains v '.' = false ∧ intParse v = none) →
      get_setting intParse floatParse settings key default = .s v) ∧
    (settings key = none →
      get_setting intParse floatParse settings key default =
        coerceValue intParse floatParse default) := by
  refine ⟨?_, ?_, ?_, ?_, ?_, ?_⟩
  · intro v hv hlow
    simp [get_setting, hv, coerceValue, coerceStr, hlow]
  · intro v hv hlow
    simp [get_setting, hv, coerceValue, coerceStr, hlow]
  · intro v q hv h1 h2 h3 h4
    simp [get_setting, hv, coerceValue, coerceStr, h1, h2, h3, h4]
  · intro v n hv h1 h2 h3 h4
    simp [get_setting, hv, coerceValue, coerceStr, h1, h2, h3, h4]
  · intro v hv h1 h2 h34
    rcases h34 with ⟨h3, h4⟩ | ⟨h3, h4⟩ <;>
      simp [get_setting, hv, coerceValue, coerceStr, h1, h2, h3, h4]
  · intro hv
    simp [get_setting, hv]

/-- Witness for `get_setting_spec`, instantiating the parse oracles with
the concrete literal-grammar fragments: the stored string "8000" comes
back as the integer 8000. -/
theorem get_setting_spec_witness :
    ((fun k => if k = "SERVER_PORT" then some "8000" else none)
        "SERVER_PORT" = some "8000") ∧
    pyLower "8000" ≠ "true" ∧ pyLower "8000" ≠ "false" ∧
    pyContains "8000" '.' = false ∧ intLitFragment "8000" = some 8000 ∧
    get_setting intLitFragment floatLitFragment
      (fun k => if k = "SERVER_PORT" then some "8000" else none)
      "SERVER_PORT" (.i 8000) = .i 8000 :=
  ⟨by decide, by decide, by decide, by decide, by decide,
    (get_setting_spec intLitFragment floatLitFragment
      (fun k => if k = "SERVER_PORT" then some "8000" else none)
      "SERVER_PORT" (.i 8000)).2.2.2.1 "8000" 8000 (by decide) (by decide)
      (by decide) (by decide) (by decide)⟩

/-- Witness for `cycle_cadence`: a successful snapshot of two symbols
sleeps 1800 s. -/
theorem cycle_cadence_witness :
    (CycleEnv.watchlist ⟨some ["BTCUSDT", "ETHUSDT"], fun _ => some 50,
        fun _ _ _ => none⟩ = some ["BTCUSDT", "ETHUSDT"]) ∧
    (historicalCycle ⟨some ["BTCUSDT", "ETHUSDT"], fun _ => some 50,
        fun _ _ _ => none⟩ 1700000000000 1 0).2 = 1800 :=
  ⟨rfl, (cycle_cadence ⟨some ["BTCUSDT", "ETHUSDT"], fun _ => some 50,
      fun _ _ _ => none⟩ 1700000000000 1 0).1 ["BTCUSDT", "ETHUSDT"] rfl⟩

end Crypto
